import Mathlib

/-!
Verification of the `Autocomplete` form element in
`src/src/elements/Autocomplete.tsx` (VS_Form_Elements).

The file embeds, as Lean definitions, the component's own logic: the value
adapter (`hookValue`), the clear-button handler, the `onChange`/`onClose`
callbacks handed to the external MUI `useAutocomplete` hook, the configuration
record passed to that hook, the portal-container ancestor walk, the listbox
width computation, and the render-time guards for the clear button and chip
removal controls.  The selection-interaction engine itself
(`@mui/material/useAutocomplete`) is an external dependency whose source is not
part of this repository; where a property depends on its behaviour, the
engine's commit pathway is modelled from the specification's description of it
(§4.2) and is clearly marked as such.
-/

namespace VSForm

/-- TS `type Primitive = string | number` (Autocomplete.tsx line 360).
Numbers are modelled as integers; nothing in the component's logic depends on
numeric arithmetic, only on equality and stringification. -/
inductive Primitive where
  | str (s : String)
  | num (n : Int)
deriving DecidableEq, Repr

/-- The host-owned field value: `Primitive | Primitive[] | null`
(the type parameter of `FormElementProps` at line 362). -/
inductive FieldValue where
  | null
  | prim (p : Primitive)
  | arr (xs : List Primitive)
deriving DecidableEq, Repr

/-- The shape the MUI hook works with: a scalar-or-null in single mode,
an array in multiple mode. -/
inductive HookValue where
  | single (p : Option Primitive)
  | multi (xs : List Primitive)
deriving DecidableEq, Repr

/-- Whether a `HookValue` is the array form (`Array.isArray` on the hook side). -/
def HookValue.isArr : HookValue → Bool
  | .multi _ => true
  | .single _ => false

/-- The value adapter, Autocomplete.tsx lines 534-541 (and identically 172-179):

```ts
const hookValue = React.useMemo(() => {
    if (multiple) {
        if (Array.isArray(value)) return value as Primitive[];
        if (value == null) return [] as Primitive[];
        return [value as Primitive];
    }
    return Array.isArray(value) ? ((value[0] as Primitive) ?? null) : (value as Primitive | null);
}, [value, multiple]);
```

`value[0]` on an empty array is `undefined`, so `?? null` yields `null`:
that is `List.head?`. -/
def hookValue (multiple : Bool) (value : FieldValue) : HookValue :=
  if multiple then
    match value with
    | .arr xs => .multi xs
    | .null => .multi []
    | .prim p => .multi [p]
  else
    match value with
    | .arr xs => .single xs.head?
    | .null => .single none
    | .prim p => .single (some p)

/-- Events the component can raise through the host's `raiseEvent`
(the names `input`, `change`, `open`, `close`, `clear` of spec §4.4). -/
inductive Emitted where
  | change (v : FieldValue)
  | clearEv (v : FieldValue)
  | inputEv (s : String)
  | openEv (s : String)
  | closeEv (s : String)
deriving DecidableEq, Repr

/-- The side effects a handler performs, in the order it performs them:
calls to the host's `setValue`, the component's own `setInput` / `setOpen`
state setters, and event emissions via `emit`. -/
inductive Action where
  | setValue (v : FieldValue)
  | setInput (s : String)
  | setOpen (b : Bool)
  | emit (e : Emitted)
deriving DecidableEq, Repr

/-- The events emitted by a list of actions, in order. -/
def emittedOf (l : List Action) : List Emitted :=
  l.filterMap fun a => match a with | .emit e => some e | _ => none

/-- The payloads of the `change` events among a list of actions, in order. -/
def changeEvents (l : List Action) : List FieldValue :=
  l.filterMap fun a => match a with | .emit (.change v) => some v | _ => none

/-- The cleared value: `const cleared = multiple ? [] : null;` (line 680). -/
def clearedValue (multiple : Bool) : FieldValue :=
  if multiple then .arr [] else .null

/-- The clear button's `onClick` handler, Autocomplete.tsx lines 679-685
(and identically 290-296):

```ts
onClick={() => {
    const cleared = multiple ? [] : null;
    setValue(cleared as any);
    setInput("");
    emit("clear", { value: cleared });
    emit("change", { value: cleared });
}}
```
-/
def clearOnClick (multiple : Bool) : List Action :=
  let cleared := clearedValue multiple
  [ .setValue cleared
  , .setInput ""
  , .emit (.clearEv cleared)
  , .emit (.change cleared) ]

/-- C1: for every host-supplied FieldValue and every setting of `multiple`, the
value adapter returns an array exactly when `multiple` is true and a
scalar-or-null exactly when `multiple` is false; in single mode a stray array is
narrowed to its first element (none when the array is empty), and in multi mode
a stray scalar is wrapped in a one-element array and null becomes the empty
array. -/
theorem hookValue_shape_invariant (m : Bool) (v : FieldValue) :
    ((hookValue m v).isArr = m)
    ∧ (∀ xs, hookValue false (.arr xs) = .single xs.head?)
    ∧ (∀ p, hookValue true (.prim p) = .multi [p])
    ∧ hookValue true .null = .multi [] := by
  refine ⟨?_, fun xs => rfl, fun p => rfl, rfl⟩
  cases m <;> cases v <;> rfl

/-- C2: activating the clear button emits `clear` strictly before `change`,
both carrying the same cleared value (null in single mode, the empty array in
multi mode), and that same cleared value is what is passed to the host's
`setValue`. -/
theorem clear_emits_clear_then_change (m : Bool) :
    emittedOf (clearOnClick m)
      = [.clearEv (clearedValue m), .change (clearedValue m)]
    ∧ Action.setValue (clearedValue m) ∈ clearOnClick m
    ∧ clearedValue false = .null
    ∧ clearedValue true = .arr [] := by
  refine ⟨?_, ?_, rfl, rfl⟩
  · cases m <;> rfl
  · cases m <;> simp [clearOnClick, clearedValue]

/-- The component-owned transient state: the host-bound value (read through
props, written only through `setValue`), the controlled `input` buffer
(line 550) and the controlled popup `open` flag (line 544, `isOpen` here
because `open` is reserved in Lean). -/
structure CState where
  value : FieldValue
  input : String
  isOpen : Bool
deriving DecidableEq, Repr

/-- Apply one action to the component state (emissions leave state unchanged;
`setValue` is the host storing the proposed value, which the component then
sees back through its `value` prop). -/
def applyAction (st : CState) : Action → CState
  | .setValue v => { st with value := v }
  | .setInput s => { st with input := s }
  | .setOpen b => { st with isOpen := b }
  | .emit _ => st

/-- Run a list of actions left to right. -/
def runActions (st : CState) (l : List Action) : CState :=
  l.foldl applyAction st

/-- `hookToField` : the identity coercion from the hook-side value shape back
to a FieldValue (`newVal as Primitive[]` / `(newVal as Primitive) ?? null` do
nothing at runtime beyond turning `undefined`/`null` into `null`). -/
def hookToField : HookValue → FieldValue
  | .single none => .null
  | .single (some p) => .prim p
  | .multi xs => .arr xs

/-- The value the component's `onChange` callback writes, Autocomplete.tsx
line 591: `const out = multiple ? (newVal as Primitive[]) : ((newVal as Primitive) ?? null);`.
The casts are erased at runtime, so in multiple mode `out` is `newVal` as-is,
and in single mode `out` is `newVal` with null/undefined collapsed to null. -/
def onChangeOut (multiple : Bool) (newVal : HookValue) : FieldValue :=
  if multiple then hookToField newVal
  else
    match newVal with
    | .single none => .null
    | .single (some p) => .prim p
    | .multi xs => .arr xs

/-- The component's `onChange` callback handed to the hook, Autocomplete.tsx
lines 590-595 (and identically 206-212):

```ts
onChange: (_e: any, newVal: any) => {
    const out = multiple ? (newVal as Primitive[]) : ((newVal as Primitive) ?? null);
    setValue(out as any);
    emit("change", { value: out });
    setInput("");
},
```
-/
def onChangeActions (multiple : Bool) (newVal : HookValue) : List Action :=
  let out := onChangeOut multiple newVal
  [ .setValue out, .emit (.change out), .setInput "" ]

/-- The component's `onClose` callback, line 602:
`onClose: () => { setOpen(false); emit("close", { input }); }` — the payload is
the render-time `input` captured by the closure. -/
def onCloseActions (curInput : String) : List Action :=
  [ .setOpen false, .emit (.closeEv curInput) ]

/-- Modelled from the spec: the new selection array the external interaction
engine (MUI `useAutocomplete`, not part of this repository) computes when an
option is picked in multiple mode — the current selection with the option
appended, or removed when already present (§3: "duplicates are not prevented
beyond whatever the interaction engine enforces"; the engine toggles). -/
def multiCommitValue (cur : List Primitive) (o : Primitive) : List Primitive :=
  if o ∈ cur then cur.erase o else cur ++ [o]

/-- Modelled from the spec: the external interaction engine's selection-commit
pathway (§4.2).  On committing option `o` the engine invokes the component's
configured `onChange` with the new value (the toggled array in multiple mode,
the option itself in single mode), and then requests a close — invoking the
configured `onClose` — exactly when `multiple` is false: "Selection commit in
multi-select mode does NOT close the popup".  The component's callbacks are
the ones embedded above; the engine's current value is the adapter output for
the component's current state. -/
def commitActions (multiple : Bool) (st : CState) (o : Primitive) : List Action :=
  let newVal : HookValue :=
    if multiple then
      .multi (multiCommitValue
        (match hookValue true st.value with | .multi xs => xs | .single _ => []) o)
    else .single (some o)
  onChangeActions multiple newVal
    ++ (if multiple then [] else onCloseActions st.input)

/-- The component state after a selection commit of option `o`. -/
def commitSelection (multiple : Bool) (st : CState) (o : Primitive) : CState :=
  runActions st (commitActions multiple st o)

/-- C4: in single-select mode, committing a selection closes the popup and
emits exactly one `change` event, whose payload is the selected option. -/
theorem single_commit_closes_and_changes_once (st : CState) (o : Primitive) :
    (commitSelection false st o).isOpen = false
    ∧ changeEvents (commitActions false st o) = [.prim o]
    ∧ (commitSelection false st o).value = .prim o := by
  refine ⟨rfl, rfl, rfl⟩

/-- C5: in multi-select mode, committing a selection leaves the popup's open
state unchanged (no `setOpen` action is performed at all) and sets the
InputText buffer to the empty string. -/
theorem multi_commit_keeps_open_clears_input (st : CState) (o : Primitive) :
    (commitSelection true st o).isOpen = st.isOpen
    ∧ (∀ b, Action.setOpen b ∉ commitActions true st o)
    ∧ (commitSelection true st o).input = "" := by
  refine ⟨rfl, ?_, rfl⟩
  intro b
  simp [commitActions, onChangeActions]

/-- C10: in single-select mode too, committing a selection resets the InputText
buffer to the empty string — the unconditional `setInput("")` runs on every
commit regardless of the `multiple` flag. -/
theorem single_commit_clears_input (st : CState) (o : Primitive) :
    (commitSelection false st o).input = ""
    ∧ Action.setInput "" ∈ commitActions false st o
    ∧ Action.setInput "" ∈ commitActions true st o := by
  refine ⟨rfl, ?_, ?_⟩ <;> simp [commitActions, onChangeActions]

/-- The configuration surface of the component (`AutocompleteProps`,
lines 362-401), restricted to the fields the verified claims touch, with the
default values of the destructuring at lines 410-448.  Caller-supplied
functions are `Option`s because the corresponding props are optional. -/
structure Props where
  options : List Primitive := []
  multiple : Bool := false
  freeSolo : Bool := false
  openOnFocus : Bool := false
  clearable : Bool := true
  filterOptions : Option (List Primitive → String → List Primitive) := none
  getOptionDisabled : Option (Primitive → Bool) := none
  groupBy : Option (Primitive → Option String) := none
  readOnly : Bool := false
  disabled : Bool := false
  listboxWidth : Option Nat := none

/-- The props surface of the external MUI `useAutocomplete` hook, restricted to
the fields relevant here.  The hook's accepted surface includes a
`getOptionDisabled` field (that is how an MUI caller tells the engine which
options are disabled); it defaults to `none` when a call site does not set it. -/
structure HookConfig where
  multiple : Bool
  freeSolo : Bool
  options : List Primitive
  filterOptions : Option (List Primitive → String → List Primitive)
  groupBy : Option (Primitive → Option String)
  value : HookValue
  inputValue : String
  isOpen : Bool
  disabled : Bool
  readOnly : Bool
  getOptionDisabled : Option (Primitive → Bool) := none

/-- The configuration record this component passes to `useAutocomplete`,
Autocomplete.tsx lines 581-609: `multiple`, `freeSolo`, `options`,
`getOptionLabel`, `filterOptions`, `groupBy`, `value`, `inputValue`,
`onChange`, `onInputChange`, `open`, `onOpen`, `onClose`, `disabled`,
`readOnly`, `selectOnFocus`, `clearOnBlur`, `handleHomeEndKeys` — and nothing
else.  In particular the call site never sets `getOptionDisabled`, so that
field keeps its default `none`. -/
def mkHookConfig (p : Props) (st : CState) : HookConfig :=
  { multiple := p.multiple
  , freeSolo := p.freeSolo
  , options := p.options
  , filterOptions := p.filterOptions
  , groupBy := p.groupBy
  , value := hookValue p.multiple st.value
  , inputValue := st.input
  , isOpen := st.isOpen
  , disabled := p.disabled
  , readOnly := p.readOnly }

/-- Modelled from the spec: the engine's option-click handler (the `onClick`
inside the props returned by `getOptionProps`).  §4.2 says disabled options
"are not selectable", so the model charitably lets the engine refuse to commit
an option that its OWN configuration marks disabled; the engine has no access
to predicates absent from its configuration, so with the default
`getOptionDisabled = none` every click commits. -/
def engineOptionClick (cfg : HookConfig) (st : CState) (o : Primitive) : List Action :=
  if (cfg.getOptionDisabled.getD (fun _ => false)) o then []
  else commitActions cfg.multiple st o

/-- Clicking a rendered option row, Autocomplete.tsx lines 701-731: each `<li>`
spreads `optionProps` from `getOptionProps({ option, index })` unchanged — the
component computes `disabledOpt = getOptionDisabled?.(opt) ?? false` (line 704)
but uses it only for styling (`cursor: not-allowed`, which does not block
pointer events) and the `aria-disabled` attribute, never to guard or replace
the engine's `onClick`.  So a click on the row dispatches the engine handler,
configured by `mkHookConfig`. -/
def clickRenderedOption (p : Props) (st : CState) (o : Primitive) : List Action :=
  engineOptionClick (mkHookConfig p st) st o

/-- A concrete configuration whose caller-supplied predicate disables every
option. -/
def c3Props : Props :=
  { options := [.str "A"], getOptionDisabled := some (fun _ => true) }

/-- A concrete state: popup open over options `["A"]`, nothing selected. -/
def c3State : CState :=
  { value := .null, input := "", isOpen := true }

/-- C3 fails on the code: with `getOptionDisabled = fun _ => true`, clicking
option `"A"` still commits it and emits a `change` event carrying `"A"`,
because the component never passes `getOptionDisabled` into the hook
configuration (its field stays `none`) and the rendered row's click handler is
the engine's unguarded one. -/
theorem clicking_disabled_option_still_changes :
    (c3Props.getOptionDisabled.getD (fun _ => false)) (.str "A") = true
    ∧ (mkHookConfig c3Props c3State).getOptionDisabled = none
    ∧ changeEvents (clickRenderedOption c3Props c3State (.str "A"))
        = [.prim (.str "A")] := by
  refine ⟨rfl, rfl, rfl⟩

/-- The listbox width, Autocomplete.tsx line 619:
`const computedListboxWidth = listboxWidth ?? anchorEl?.clientWidth;`
(`anchorClientWidth` is `none` while no anchor element is mounted). -/
def computedListboxWidth (listboxWidth : Option Nat) (anchorClientWidth : Option Nat) :
    Option Nat :=
  match listboxWidth with
  | some w => some w
  | none => anchorClientWidth

/-- The `width` entry of the style object applied to the rendered `<ul>` at
line 701: `style={{ ...styles.listbox, width: computedListboxWidth }}`. -/
def listboxRenderedWidth (p : Props) (anchorClientWidth : Option Nat) : Option Nat :=
  computedListboxWidth p.listboxWidth anchorClientWidth

/-- C6: the listbox width equals the explicit `listboxWidth` override when one
is supplied, and otherwise defaults to the measured width of the anchor
element. -/
theorem listbox_width_override_or_anchor (w : Nat) (aw : Option Nat) (p : Props) :
    listboxRenderedWidth { p with listboxWidth := some w } aw = some w
    ∧ listboxRenderedWidth { p with listboxWidth := none } aw = aw := by
  exact ⟨rfl, rfl⟩

/-- The render-time facts C8 is about, read off the JSX (second component
version): `readOnlyOrDisabled = disabled || readOnly` (line 616); the root
`<div>` carries `aria-disabled={readOnlyOrDisabled}` (line 622); the clear
button renders iff `clearable && !readOnlyOrDisabled` (line 674); chips render
iff `multiple && Array.isArray(uaValue) && uaValue.length > 0` (line 632), and
each chip's removal `<button>` renders iff `!readOnlyOrDisabled` (line 638). -/
structure RenderFlags where
  ariaDisabledRoot : Bool
  clearButtonShown : Bool
  chipCount : Nat
  chipRemoveCount : Nat
deriving DecidableEq, Repr

/-- Compute the render flags from the props and the engine-reported value. -/
def renderFlags (p : Props) (uaValue : HookValue) : RenderFlags :=
  let rod := p.disabled || p.readOnly
  let chips :=
    if p.multiple then
      match uaValue with | .multi xs => xs.length | .single _ => 0
    else 0
  { ariaDisabledRoot := rod
  , clearButtonShown := p.clearable && !rod
  , chipCount := chips
  , chipRemoveCount := if rod then 0 else chips }

/-- C8: whenever `disabled` or `readOnly` is true, the rendered output contains
no clear button and no chip-removal controls, and the root element is marked
`aria-disabled`. -/
theorem disabled_suppresses_clear_and_chip_removal (p : Props) (uaValue : HookValue)
    (h : p.disabled = true ∨ p.readOnly = true) :
    (renderFlags p uaValue).clearButtonShown = false
    ∧ (renderFlags p uaValue).chipRemoveCount = 0
    ∧ (renderFlags p uaValue).ariaDisabledRoot = true := by
  have hrod : (p.disabled || p.readOnly) = true := by
    rcases h with h | h <;> simp [h]
  refine ⟨?_, ?_, ?_⟩ <;> simp [renderFlags, hrod]

/-- Witness for C8: a concrete disabled configuration with two chips selected
renders neither clear button nor removal controls and is marked
`aria-disabled`. -/
theorem disabled_suppresses_clear_and_chip_removal_witness :
    (renderFlags { multiple := true, disabled := true }
        (.multi [.str "A", .str "B"])).clearButtonShown = false
    ∧ (renderFlags { multiple := true, disabled := true }
        (.multi [.str "A", .str "B"])).chipRemoveCount = 0
    ∧ (renderFlags { multiple := true, disabled := true }
        (.multi [.str "A", .str "B"])).ariaDisabledRoot = true :=
  disabled_suppresses_clear_and_chip_removal
    { multiple := true, disabled := true }
    (.multi [.str "A", .str "B"]) (Or.inl rfl)

/-- An element on the anchor's ancestor chain, reduced to the two computed
custom-property values the portal-container effect reads
(`getComputedStyle(el).getPropertyValue(...)` returns the empty string for an
unset property). -/
structure StyledEl where
  uiFg : String
  colorFg : String
deriving DecidableEq, Repr

/-- The test the effect applies to one element, Autocomplete.tsx lines 563-565:

```ts
const fg = cs?.getPropertyValue("--calcite-ui-foreground-1") || cs?.getPropertyValue("--calcite-color-foreground-1");
if (fg && fg.trim() !== "") { found = el; break; }
```

JS `||` takes the first operand when it is a non-empty (truthy) string, so a
whitespace-only `--calcite-ui-foreground-1` masks `--calcite-color-foreground-1`,
and the `.trim()` check then rejects the element.  `fg.trim() !== ""` holds
exactly when `fg` contains a non-whitespace character; it is embedded in that
form (`nonBlank`) to keep the definition kernel-computable. -/
def nonBlank (s : String) : Bool :=
  s.data.any fun c => !c.isWhitespace

def elQualifies (e : StyledEl) : Bool :=
  let fg := if e.uiFg != "" then e.uiFg else e.colorFg
  fg != "" && nonBlank fg

/-- The ancestor walk of the portal-container effect, lines 556-569: starting
at the anchor itself and moving to `parentElement` each step, return the first
element passing `elQualifies`.  The chain is the anchor followed by its
ancestors; the result is the index into that chain, `none` standing for the
`found ?? doc.body` fallback. -/
def findPortalContainer : List StyledEl → Option Nat
  | [] => none
  | e :: rest =>
    if elQualifies e then some 0
    else (findPortalContainer rest).map (· + 1)

/-- Formalisation of the claim's own words, for comparison with the code: the
nearest element "whose computed style defines a non-empty theming custom
property (--calcite-ui-foreground-1 or --calcite-color-foreground-1)". -/
def specQualifies (e : StyledEl) : Bool :=
  e.uiFg != "" || e.colorFg != ""

/-- The portal target the claim's words describe: nearest spec-qualifying
element, body (`none`) when there is none. -/
def specPortalTarget : List StyledEl → Option Nat
  | [] => none
  | e :: rest =>
    if specQualifies e then some 0
    else (specPortalTarget rest).map (· + 1)

/-- C7 counterexample: an anchor whose computed `--calcite-ui-foreground-1` is
the one-space string `" "` and whose `--calcite-color-foreground-1` is
`"#fff"` defines a non-empty theming custom property (indeed two of them), so
the claim selects it; the code skips it — `" " || "#fff"` short-circuits to
`" "`, whose trim is empty — and falls back to the document body. -/
theorem portal_walk_spec_mismatch :
    specPortalTarget [{ uiFg := " ", colorFg := "#fff" }] = some 0
    ∧ findPortalContainer [{ uiFg := " ", colorFg := "#fff" }] = none := by
  refine ⟨by decide, by decide⟩

/-- C7 (amended): the effect selects the nearest element, walking from the
anchor upward, for which the first non-empty of the two theming custom
properties (`--calcite-ui-foreground-1`, else `--calcite-color-foreground-1`)
is non-blank after trimming whitespace — a whitespace-only
`--calcite-ui-foreground-1` masks `--calcite-color-foreground-1` — and falls
back to the document body when no element on the chain passes that test. -/
theorem portal_walk_nearest_qualifying (chain : List StyledEl) :
    ((findPortalContainer chain = none) ↔ ∀ e ∈ chain, elQualifies e = false)
    ∧ ∀ i, findPortalContainer chain = some i →
        (∃ e, chain.get? i = some e ∧ elQualifies e = true)
        ∧ ∀ j, j < i → ∀ e, chain.get? j = some e → elQualifies e = false := by
  induction chain with
  | nil =>
    refine ⟨by simp [findPortalContainer], ?_⟩
    intro i hi
    simp [findPortalContainer] at hi
  | cons e rest ih =>
    by_cases he : elQualifies e = true
    · refine ⟨?_, ?_⟩
      · simp [findPortalContainer, he]
      · intro i hi
        simp [findPortalContainer, he] at hi
        subst hi
        refine ⟨⟨e, rfl, he⟩, ?_⟩
        intro j hj
        exact absurd hj (Nat.not_lt_zero j)
    · have he' : elQualifies e = false := by
        cases h : elQualifies e
        · rfl
        · exact absurd h he
      refine ⟨?_, ?_⟩
      · constructor
        · intro hnone
          simp [findPortalContainer, he', Option.map_eq_none] at hnone
          intro x hx
          rcases List.mem_cons.mp hx with hx | hx
          · subst hx; exact he'
          · exact (ih.1.mp hnone) x hx
        · intro hall
          have hrest : findPortalContainer rest = none :=
            ih.1.mpr fun x hx => hall x (List.mem_cons_of_mem e hx)
          simp [findPortalContainer, he', hrest]
      · intro i hi
        simp [findPortalContainer, he'] at hi
        rcases hi with ⟨i', hi', rfl⟩
        obtain ⟨⟨x, hx, hxq⟩, hbefore⟩ := ih.2 i' hi'
        refine ⟨⟨x, by simpa using hx, hxq⟩, ?_⟩
        intro j hj y hy
        cases j with
        | zero =>
          simp at hy
          subst hy
          exact he'
        | succ j' =>
          have hj' : j' < i' := Nat.lt_of_succ_lt_succ hj
          exact hbefore j' hj' y (by simpa using hy)

/-- Witness for C7 (amended): on the concrete chain where the anchor defines
neither property and its parent defines `--calcite-ui-foreground-1 = "#fff"`,
the effect selects index 1, which qualifies. -/
theorem portal_walk_nearest_qualifying_witness :
    ∃ x, ([{ uiFg := "", colorFg := "" }, { uiFg := "#fff", colorFg := "" }] :
        List StyledEl).get? 1 = some x ∧ elQualifies x = true :=
  ((portal_walk_nearest_qualifying
      [{ uiFg := "", colorFg := "" }, { uiFg := "#fff", colorFg := "" }]).2
    1 (by decide)).1

/-- The per-option call at line 704, `getOptionDisabled?.(opt) ?? false`,
re-expressed in an exception monad to state propagation: the predicate is
invoked directly — the component contains no try/catch anywhere — so a throwing
predicate aborts the computation with its error, and only an absent predicate
yields the `?? false` default. -/
def evalOptionDisabledE (f : Option (Primitive → Except String Bool)) (o : Primitive) :
    Except String Bool :=
  match f with
  | none => .ok false
  | some g => g o

/-- The listbox body's `groupedOptions.map` at lines 702-731, reduced to the
per-row `disabledOpt` computation: rendering the rows evaluates the predicate
on every option in order, with no recovery between rows. -/
def renderOptionRowsE (f : Option (Primitive → Except String Bool)) :
    List Primitive → Except String (List Bool)
  | [] => .ok []
  | o :: rest => do
    let d ← evalOptionDisabledE f o
    let ds ← renderOptionRowsE f rest
    pure (d :: ds)

/-- C9: caller-supplied functions are invoked without any catch/recovery
wrapper.  A `getOptionDisabled` that throws on an option propagates its error
out of the per-option evaluation and out of the whole row-rendering pass, and
`filterOptions`/`groupBy` reach the interaction engine exactly as supplied
(the component wraps neither). -/
theorem thrown_callback_error_propagates
    (g : Primitive → Except String Bool) (o : Primitive) (e : String)
    (h : g o = .error e) :
    evalOptionDisabledE (some g) o = .error e
    ∧ renderOptionRowsE (some g) [o] = .error e
    ∧ ∀ (p : Props) (st : CState),
        (mkHookConfig p st).filterOptions = p.filterOptions
        ∧ (mkHookConfig p st).groupBy = p.groupBy := by
  refine ⟨h, ?_, fun p st => ⟨rfl, rfl⟩⟩
  simp only [renderOptionRowsE, evalOptionDisabledE, h]
  rfl

/-- Witness for C9: a predicate that throws `"boom"` on every option makes the
evaluation and the row rendering return that very error. -/
theorem thrown_callback_error_propagates_witness :
    evalOptionDisabledE (some (fun _ => Except.error "boom")) (.str "A")
        = .error "boom"
    ∧ renderOptionRowsE (some (fun _ => Except.error "boom")) [.str "A"]
        = .error "boom"
    ∧ ∀ (p : Props) (st : CState),
        (mkHookConfig p st).filterOptions = p.filterOptions
        ∧ (mkHookConfig p st).groupBy = p.groupBy :=
  thrown_callback_error_propagates (fun _ => Except.error "boom") (.str "A") "boom" rfl

end VSForm
